import Mathlib

/-!
Verification development for the vector-kg-llm claim-ingestion pipeline.

Shallow embedding of the two services' core logic:
* `services/agent-gateway/gateway/app.py` — policy gate (`propose_claim`),
  trust scorer (`_trust_score`), conflict detector (`_has_conflicts`),
  cypher safety filter (`_cypher_safe`), tool dispatch (`_dispatch_tool`),
  JSON extraction (`_extract_json`) and the `/query` agent loop.
* `services/kg-api/app.py` — the claim ledger (`propose_claim`, `approve`,
  `reject`) as a state machine over entities, claims and materialized edges.

Modelling conventions: Python floats are modelled by `ℚ` (the claims under
study are about the algebraic structure of the computations, not about
binary rounding); HTTP exceptions are modelled by `Except Nat` carrying the
status code; network I/O (the graph store, the language model) is modelled
by explicit response values / oracles passed as parameters.
-/

namespace VKG

deriving instance DecidableEq for Except

/-! ### String utilities

Python's `in` operator on strings (substring containment), used by
`_cypher_safe`, together with an existential characterization. -/

/-- `startsWithAux p s` : the char list `p` is a prefix of `s`. -/
def startsWithAux : List Char → List Char → Bool
  | [], _ => true
  | _ :: _, [] => false
  | p :: ps, c :: cs => p == c && startsWithAux ps cs

/-- `hasSubAux pat s` : `pat` occurs as a contiguous sublist of `s`. -/
def hasSubAux (pat : List Char) : List Char → Bool
  | [] => pat.isEmpty
  | c :: rest => startsWithAux pat (c :: rest) || hasSubAux pat rest

/-- Python `pat in s` for strings. -/
def strHasSub (pat s : String) : Bool := hasSubAux pat.data s.data

/-- Declarative substring occurrence: `s` decomposes as `a ++ pat ++ b`. -/
def OccursIn (pat s : String) : Prop := ∃ a b : String, s = a ++ pat ++ b

/-! ### Gateway data model

From `services/agent-gateway/gateway/app.py` (pydantic models `Evidence`,
`Provenance`, `ClaimIn`) and the module constants of
`services/agent-gateway/gateway/__init__.py`. -/

/-- Pydantic `Evidence` of the gateway (same shape as kg-api's
`EvidenceModel`). `quality_score`/`timestamp` are optional floats,
modelled as `Option ℚ`. -/
structure Evidence where
  uri_or_blob_ref : String
  snippet : Option String := none
  hash : Option String := none
  source_type : String
  quality_score : Option ℚ := none
  timestamp : Option ℚ := none
  deriving DecidableEq

/-- Pydantic `Provenance` (free-form attribution; inert for policy). -/
structure Provenance where
  who : Option String := none
  when : Option ℚ := none
  prompt_hash : Option String := none
  model_version : Option String := none
  git_sha : Option String := none
  image_digest : Option String := none
  run_id : Option String := none
  dataset_uri : Option String := none
  sensor_id : Option String := none
  frame_ts : Option ℚ := none
  deriving DecidableEq

/-- Pydantic `ClaimIn` of the gateway. -/
structure ClaimIn where
  subject_id : String
  predicate : String
  object_kind : String
  object_value : String
  model_conf : Option ℚ := none
  human_conf : Option ℚ := none
  context_hash : Option String := none
  evidence : List Evidence := []
  provenance : Option Provenance := none
  deriving DecidableEq

/-- Gateway configuration constants (`__init__.py`): `AUTO_TRUST` and
`MIN_QUAL` come from the environment, the two sets are hard-coded; all are
read as module-level constants by the gateway. -/
structure GConfig where
  AUTO_TRUST : ℚ
  MIN_QUAL : ℚ
  AUTO_MERGE_PREDICATES : List String
  FIRST_PARTY : List String

/-- The constants as shipped in `__init__.py` (env defaults
`TIER_AUTO_TRUST_THRESHOLD=0.85`, `TIER_MIN_EVIDENCE_QUALITY=0.70`). -/
def defaultConfig : GConfig :=
  { AUTO_TRUST := 0.85
    MIN_QUAL := 0.70
    AUTO_MERGE_PREDICATES := ["USES", "INGESTS", "PRODUCES"]
    FIRST_PARTY := ["first_party_log", "config", "run_artifact"] }

/-! ### Trust scorer (`_trust_score`) -/

/-- Python `max` over a non-empty list (the `[]` case is a dead default,
the caller guards on non-emptiness). -/
def pymax : List ℚ → ℚ
  | [] => 0
  | x :: xs => xs.foldl max x

/-- `_trust_score` (gateway/app.py lines 104-110):
`qual = max((e.quality_score or 0.0) for e in claim.evidence) if claim.evidence else 0.0`;
`first_party_bonus = 0.15 if all(source_type in FIRST_PARTY) and claim.evidence else 0.0`;
`raw = 0.5*qual + 0.4*(model_conf or 0.0)`; clamped to `[0,1]`. -/
def _trust_score (cfg : GConfig) (claim : ClaimIn) : ℚ :=
  let qual : ℚ :=
    if claim.evidence.isEmpty then 0
    else pymax (claim.evidence.map (fun e => e.quality_score.getD 0))
  let first_party_bonus : ℚ :=
    if claim.evidence.all (fun e => decide (e.source_type ∈ cfg.FIRST_PARTY))
        && !claim.evidence.isEmpty then 0.15 else 0
  let model_conf : ℚ := claim.model_conf.getD 0
  let raw : ℚ := 0.5 * qual + 0.4 * model_conf + first_party_bonus
  max 0 (min 1 raw)

/-- The trust formula as worded by the spec (§4.1): `qual` is
`max(e.quality_score for e in evidence, default 0)` with absent scores as 0,
plus first-party bonus and clamp. Spec-side definition, to be compared with
`_trust_score`. -/
def trustSpecScore (cfg : GConfig) (claim : ClaimIn) : ℚ :=
  let qual : ℚ := ((claim.evidence.map (fun e => e.quality_score.getD 0)).max?).getD 0
  let first_party_bonus : ℚ :=
    if claim.evidence ≠ [] ∧ ∀ e ∈ claim.evidence, e.source_type ∈ cfg.FIRST_PARTY
    then 0.15 else 0
  let raw : ℚ := 0.5 * qual + 0.4 * claim.model_conf.getD 0 + first_party_bonus
  max 0 (min 1 raw)

/-! ### Conflict detector (`_has_conflicts`)

`_has_conflicts` posts a cypher query to kg-api and parses
`res.get("records", [{}])[0].get("objs", [])`.  The HTTP call and the JSON
shape of the response are modelled explicitly: `KgResp.exn` stands for any
exception raised by `_kg_post` itself (store unreachable, HTTP status ≥ 400,
non-JSON body); `KgResp.body records` is a parsed JSON object whose
`records` key is present (`some recs`) or absent (`none`). -/

/-- One element of the `records` array: a JSON dict whose `objs` key is
present (`some objs`, a list of object ids) or absent; a falsy value
(`None`/`\x7b\x7d`-empty dict, coerced by `or \x7b\x7d`); or a truthy
non-dict value (`.get` raises `AttributeError`). -/
inductive RecordVal where
  | dict (objs : Option (List String))
  | falsy
  | truthyNonDict
  deriving DecidableEq

/-- Response of the `/cypher` call made by the conflict detector. -/
inductive KgResp where
  | exn
  | body (records : Option (List RecordVal))
  deriving DecidableEq

/-- The entity-only disagreement test (`any(o != claim.object_value for o in objs)`
under `if claim.object_kind == "entity"`). -/
def conflictOn (claim : ClaimIn) (objs : List String) : Bool :=
  if claim.object_kind = "entity" then objs.any (fun o => o != claim.object_value)
  else false

/-- `_has_conflicts` (gateway/app.py lines 113-129).  Every path that raises
in the Python code (`_kg_post` failure, `IndexError` on an empty `records`
list, `AttributeError` on a truthy non-dict record) returns `true`
("on failure, be conservative: route to review"). -/
def _has_conflicts (claim : ClaimIn) (resp : KgResp) : Bool :=
  match resp with
  | .exn => true
  | .body records =>
    match (records.getD [RecordVal.dict none]).head? with
    | none => true
    | some RecordVal.truthyNonDict => true
    | some RecordVal.falsy => conflictOn claim []
    | some (RecordVal.dict o) => conflictOn claim (o.getD [])

/-- The response paths on which the Python detector raises an exception
internally (and is caught by its `except Exception` with result `True`). -/
def respRaises : KgResp → Bool
  | .exn => true
  | .body records =>
    match (records.getD [RecordVal.dict none]).head? with
    | none => true
    | some RecordVal.truthyNonDict => true
    | some _ => false

/-- The `objs` list the store computes for the detector's query
`MATCH (s:Entity ...)-[r]->(o) WHERE type(r)=$pred RETURN collect(distinct o.id)`
over a graph whose entity edges are `edges`. -/
def conflictQueryObjs (edges : List (String × String × String))
    (sid pred : String) : List String :=
  ((edges.filter (fun e => e.1 == sid && e.2.1 == pred)).map (fun e => e.2.2)).dedup

/-! ### Policy gate (gateway `propose_claim`, lines 226-266) -/

/-- The decision record returned (and the status persisted) by the gateway's
`propose_claim` endpoint. -/
structure GateResult where
  decision : String
  trust : ℚ
  min_quality_ok : Bool
  no_conflict : Bool
  status : String
  deriving DecidableEq

/-- The gate's local `min_qual_ok`
(`all((e.quality_score or 0.0) >= MIN_QUAL for e in claim.evidence) if claim.evidence else False`). -/
def min_qual_okB (cfg : GConfig) (claim : ClaimIn) : Bool :=
  if claim.evidence.isEmpty then false
  else claim.evidence.all (fun e => decide (cfg.MIN_QUAL ≤ e.quality_score.getD 0))

/-- The gate's local `auto_merge` conjunction (lines 236-242). -/
def auto_mergeB (cfg : GConfig) (claim : ClaimIn) (resp : KgResp) : Bool :=
  decide (claim.predicate ∈ cfg.AUTO_MERGE_PREDICATES)
    && decide (claim.object_kind = "entity")
    && decide (cfg.AUTO_TRUST ≤ _trust_score cfg claim)
    && min_qual_okB cfg claim
    && ! _has_conflicts claim resp

/-- The policy gate: trust, `min_qual_ok`, `no_conflict`, `auto_merge`, and
the resulting status (`"approved"` iff `auto_merge`). `resp` is the graph
store's response to the conflict-detector query. -/
def propose_claim_gateway (cfg : GConfig) (claim : ClaimIn) (resp : KgResp) :
    GateResult :=
  { decision := if auto_mergeB cfg claim resp then "T1-auto-merge" else "T2-review"
    trust := _trust_score cfg claim
    min_quality_ok := min_qual_okB cfg claim
    no_conflict := ! _has_conflicts claim resp
    status := if auto_mergeB cfg claim resp then "approved" else "pending" }

/-! ### Claim ledger state machine (`services/kg-api/app.py`)

Neo4j's content is modelled explicitly: `entities` (the `Entity` nodes,
unique by id thanks to the startup constraint, so upserts are set inserts),
`claims` (the `Claim` nodes; `apoc.create.uuid()` is modelled by a counter),
`edges` (the apoc-materialized entity relationships — a *multiset*, since
`apoc.create.relationship` always creates a new relationship), `supports`
(Claim→Evidence `SUPPORTS` links) and `pgRows` (the Postgres evidence
audit rows written by `_write_evidence_pg`). -/

/-- A stored `Claim` node. -/
structure KClaim where
  id : Nat
  subject_id : String
  predicate : String
  object_kind : String
  object_value : String
  status : String
  deriving DecidableEq

/-- A materialized entity relationship `(subj)-[pred]->(obj)`. -/
structure KEdge where
  subj : String
  pred : String
  obj : String
  deriving DecidableEq

/-- The durable state of kg-api's two stores. -/
structure KGState where
  entities : List String
  claims : List KClaim
  edges : List KEdge
  supports : List (Nat × Evidence)
  pgRows : List Evidence
  nextId : Nat
  deriving DecidableEq

/-- The empty stores. -/
def kgInit : KGState := ⟨[], [], [], [], [], 0⟩

/-- kg-api's pydantic `ClaimProposal` (fields relevant to the ledger's
behavior; the inert confidence/provenance fields are carried by the claim
node itself in the source and elided here). `status` defaults to
`"pending"`. -/
structure KProposal where
  subject_id : String
  predicate : String
  object_kind : String
  object_value : String
  status : String := "pending"
  evidence : List Evidence := []
  deriving DecidableEq

/-- `_ensure_entity` (`MERGE (e:Entity ...)` — upsert by unique id). -/
def ensureEntity (es : List String) (eid : String) : List String :=
  if eid ∈ es then es else es ++ [eid]

/-- kg-api `propose_claim` (app.py lines 242-318): upsert subject (and
object when `object_kind='entity'`), create the Claim node, link each
Evidence (graph `SUPPORTS` link + Postgres row), and — when the incoming
status is `'approved'` and the object is an entity — materialize the edge
with `apoc.create.relationship` in the same transaction.  Returns the new
state and the created claim id. -/
def kgPropose (st : KGState) (p : KProposal) : KGState × Nat :=
  let ents := ensureEntity st.entities p.subject_id
  let ents := if p.object_kind = "entity" then ensureEntity ents p.object_value else ents
  let cid := st.nextId
  let c : KClaim :=
    { id := cid, subject_id := p.subject_id, predicate := p.predicate
      object_kind := p.object_kind, object_value := p.object_value, status := p.status }
  let edges :=
    if p.status = "approved" ∧ p.object_kind = "entity" then
      st.edges ++ [⟨p.subject_id, p.predicate, p.object_value⟩]
    else st.edges
  (⟨ents, st.claims ++ [c], edges,
    st.supports ++ p.evidence.map (fun e => (cid, e)),
    st.pgRows ++ p.evidence, cid + 1⟩, cid)

/-- `SET c.status = st` on the claim with the given id. -/
def setStatus (cs : List KClaim) (cid : Nat) (st : String) : List KClaim :=
  cs.map (fun c => if c.id = cid then { c with status := st } else c)

/-- kg-api `approve` (app.py lines 325-355): 404 when the claim id is
unknown; for an entity claim, `MATCH` subject and object entities and
`apoc.create.relationship` a **new** edge (apoc create never merges) while
setting the status; when a `MATCH` finds nothing (entity missing) the write
query does nothing but the endpoint still returns ok; for a literal claim
only the status is set. -/
def kgApprove (st : KGState) (cid : Nat) : Except Nat KGState :=
  match st.claims.find? (fun c => c.id == cid) with
  | none => .error 404
  | some c =>
    if c.object_kind = "entity" then
      if c.subject_id ∈ st.entities ∧ c.object_value ∈ st.entities then
        .ok { st with
              edges := st.edges ++ [⟨c.subject_id, c.predicate, c.object_value⟩]
              claims := setStatus st.claims cid "approved" }
      else .ok st
    else .ok { st with claims := setStatus st.claims cid "approved" }

/-- kg-api `reject` (app.py lines 358-364): unconditional status write, no
existence check. -/
def kgReject (st : KGState) (cid : Nat) : KGState :=
  { st with claims := setStatus st.claims cid "rejected" }

/-- An operation against the ledger. -/
inductive KGOp where
  | propose (p : KProposal)
  | approve (cid : Nat)
  | reject (cid : Nat)
  deriving DecidableEq

/-- One HTTP call against kg-api; a 404 from `approve` leaves the state
unchanged. -/
def kgStep (st : KGState) : KGOp → KGState
  | .propose p => (kgPropose st p).1
  | .approve cid =>
    match kgApprove st cid with
    | .ok st2 => st2
    | .error _ => st
  | .reject cid => kgReject st cid

/-- A sequence of calls. -/
def kgRun (st : KGState) (ops : List KGOp) : KGState := ops.foldl kgStep st

/-! ### Gateway → ledger composition -/

/-- `payload = claim.model_dump(); payload["status"] = status` — the
proposal the gateway posts to kg-api's `/propose_claim`. -/
def toKProposal (claim : ClaimIn) (status : String) : KProposal :=
  { subject_id := claim.subject_id, predicate := claim.predicate
    object_kind := claim.object_kind, object_value := claim.object_value
    status := status, evidence := claim.evidence }

/-- The gateway's full `propose_claim` flow (app.py lines 226-266): run the
policy gate, post the proposal with the decided status, and — when the
decided status is `"approved"` — issue the follow-up `/approve` on the
created claim id (its failure is swallowed). -/
def gatewayProposeFlow (cfg : GConfig) (claim : ClaimIn) (resp : KgResp)
    (st : KGState) : GateResult × KGState :=
  let g := propose_claim_gateway cfg claim resp
  let pr := kgPropose st (toKProposal claim g.status)
  let st3 :=
    if g.status = "approved" then
      match kgApprove pr.1 pr.2 with
      | .ok st2 => st2
      | .error _ => pr.1
    else pr.1
  (g, st3)

/-! ### Cypher safety filter and tool dispatch -/

/-- The denylist of `_cypher_safe` (gateway/app.py line 187), verbatim. -/
def badTokens : List String :=
  ["name:", "HAS_KNOWLEDGE", "CREATE ", "MERGE ", "DELETE ", "SET "]

/-- `_cypher_safe` (lines 186-188): `not any(b in query for b in bad)` —
exact, case-sensitive substring tests. -/
def _cypher_safe (query : String) : Bool :=
  ! badTokens.any (fun b => strHasSub b query)

/-- The args dict of a tool call: `query` models `args.get("query", "")`,
`payload` the remaining (opaque, forwarded verbatim) fields. -/
structure ToolArgs where
  query : String := ""
  payload : List (String × String) := []
  deriving DecidableEq

/-- A request that reaches the kg-api store via `_kg_post`. -/
inductive StoreCall where
  | neighbors (args : ToolArgs)
  | proposeClaim (args : ToolArgs)
  | cypher (args : ToolArgs)
  deriving DecidableEq

/-- `_dispatch_tool` (lines 160-177).  The store is an oracle
`StoreCall → Except Nat String` (a `.error` models `_kg_post` raising
`HTTPException`); the second component of the result is the list of calls
that actually reached the store.  The safety check on `cypher` runs before
any dispatch; unknown tools raise 400. -/
def dispatchTool (store : StoreCall → Except Nat String)
    (tool : Option String) (args : ToolArgs) : Except Nat String × List StoreCall :=
  if tool == some "cypher" && ! _cypher_safe args.query then (.error 400, [])
  else if tool == some "neighbors" then (store (.neighbors args), [.neighbors args])
  else if tool == some "propose_claim" then
    (store (.proposeClaim args), [.proposeClaim args])
  else if tool == some "cypher" then (store (.cypher args), [.cypher args])
  else (.error 400, [])

/-! ### JSON extraction (`_extract_json`) and the `/query` agent loop

The language model is an oracle: the list of its successive (string)
responses.  `json.loads` on the regex-matched substring is abstracted by a
`parse : String → Option ExtractedV` parameter (`none` models a
`json.loads` failure); what `_extract_json` itself does to the raw text —
wrapper-token stripping, the greedy `\x7b.*\x7d` search, the coercion of
non-JSON text to a final answer — is embedded faithfully. -/

/-- The shape of the parsed model object the loop inspects: either it has a
`"final"` key (with `final.get("answer","")` already extracted) or it is a
tool request with an optional `"tool"` tag. -/
inductive ExtractedV where
  | final (answer : String)
  | toolReq (tool : Option String) (args : ToolArgs)
  deriving DecidableEq

/-- Does the extracted object have a `"final"` key? -/
def isFinalObj : ExtractedV → Bool
  | .final _ => true
  | .toolReq _ _ => false

/-- Python `str.strip()`. -/
def pyStrip (s : String) : String :=
  ⟨((s.data.dropWhile Char.isWhitespace).reverse.dropWhile Char.isWhitespace).reverse⟩

/-- `re.sub(r'^\s*\[TOOL_RESULT\]\s*', '', s)`: when `s` starts, after
optional whitespace, with the literal `[TOOL_RESULT]`, that prefix and the
surrounding whitespace are removed; otherwise `s` is unchanged. -/
def stripToolResultPre (s : String) : String :=
  let t := s.data.dropWhile Char.isWhitespace
  if startsWithAux "[TOOL_RESULT]".data t then
    ⟨(t.drop 13).dropWhile Char.isWhitespace⟩
  else s

/-- `re.sub(r'\s*\[END_TOOL_RESULT\]\s*$', '', s)`, mirrored on the
reversed character list. -/
def stripEndToolResultSuf (s : String) : String :=
  let r := s.data.reverse
  let t := r.dropWhile Char.isWhitespace
  if startsWithAux "[END_TOOL_RESULT]".data.reverse t then
    ⟨((t.drop 17).dropWhile Char.isWhitespace).reverse⟩
  else s

/-- Both wrapper-stripping substitutions, in source order. -/
def stripWrappers (s : String) : String := stripEndToolResultSuf (stripToolResultPre s)

/-- The opening-brace character. -/
def lbrace : Char := Char.ofNat 123

/-- The closing-brace character. -/
def rbrace : Char := Char.ofNat 125

/-- `re.search(r"\x7b.*\x7d", s, DOTALL)` succeeds iff some `\x7d` follows
some `\x7b`. -/
def bracesFound : List Char → Bool
  | [] => false
  | c :: rest => if c = lbrace then rest.contains rbrace else bracesFound rest

/-- The greedy match group: from the first `\x7b` to the last `\x7d`. -/
def greedyBraceSub (s : String) : String :=
  let afterFirst := s.data.dropWhile (fun c => !(c == lbrace))
  ⟨(afterFirst.reverse.dropWhile (fun c => !(c == rbrace))).reverse⟩

/-- `_extract_json` (lines 147-158): strip wrappers, search for a JSON
object; on regex failure *or* `json.loads` failure, coerce the whole
stripped-and-trimmed text to a final answer (`s.strip() or ""` — Python's
`or ""` is the identity here since the empty string is its own default). -/
def extractJson (parse : String → Option ExtractedV) (s : String) : ExtractedV :=
  let t := stripWrappers s
  if bracesFound t.data then
    match parse (greedyBraceSub t) with
    | some obj => obj
    | none => .final (pyStrip t)
  else .final (pyStrip t)

/-- An entry of the `/query` trace. -/
inductive TraceEntry where
  | assistant (text : String)
  | toolResult (result : String)
  deriving DecidableEq

/-- The JSON body of a successful `/query` response: the answer, how many
model calls were made, the trace, and the optional `data` field of the
neighbors fast path. -/
structure QueryOut where
  answer : String
  modelCalls : Nat
  trace : List TraceEntry
  data : Option String := none
  deriving DecidableEq

/-- The sentinel answer returned when the step budget is exhausted. -/
def stoppedSentinel : String := "(stopped: max_steps)"

/-- The `for _ in range(max(1, body.max_steps))` loop of `/query`
(lines 326-336).  `resps` are the model's successive responses (the k-th
call returns the k-th element, `""` past the end); `fuel` is the remaining
step budget; `calls`/`trace` accumulate.  A `final` object returns the
answer; otherwise the object is dispatched, an `HTTPException` from
dispatch propagates (`.error`), and a successful tool result is appended to
the trace and the conversation continues. -/
def runLoop (parse : String → Option ExtractedV) (store : StoreCall → Except Nat String) :
    List String → Nat → Nat → List TraceEntry → Except Nat QueryOut
  | _, 0, calls, trace => .ok ⟨stoppedSentinel, calls, trace, none⟩
  | resps, fuel + 1, calls, trace =>
    let text := resps.headD ""
    let trace2 := trace ++ [.assistant text]
    match extractJson parse text with
    | .final ans => .ok ⟨ans, calls + 1, trace2, none⟩
    | .toolReq tool args =>
      match dispatchTool store tool args with
      | (.error e, _) => .error e
      | (.ok r, _) => runLoop parse store resps.tail fuel (calls + 1) (trace2 ++ [.toolResult r])

/-- The `/query` endpoint (lines 295-336).  `routeAdd`/`routeNei` model the
regex fast-path matchers `_maybe_route_add_claim`/`_maybe_route_neighbors`
(returning the routed tool request on a match) and `dumps` models
`json.dumps` of a routed request for the trace.  On the add-claim fast path
the tool result is returned directly with an empty answer and no model
call; on the neighbors fast path the model gets exactly one turn to
summarize; otherwise the bounded loop runs. -/
def runQuery (parse : String → Option ExtractedV) (store : StoreCall → Except Nat String)
    (dumps : Option String × ToolArgs → String)
    (routeAdd routeNei : String → Option (Option String × ToolArgs))
    (question : String) (resps : List String) (maxSteps : Nat) : Except Nat QueryOut :=
  match routeAdd question with
  | some r =>
    match dispatchTool store r.1 r.2 with
    | (.error e, _) => .error e
    | (.ok res, _) => .ok ⟨"", 0, [.assistant (dumps r), .toolResult res], none⟩
  | none =>
    match routeNei question with
    | some r =>
      match dispatchTool store r.1 r.2 with
      | (.error e, _) => .error e
      | (.ok res, _) =>
        let text := resps.headD ""
        let trace2 := [TraceEntry.assistant (dumps r), .toolResult res, .assistant text]
        match extractJson parse text with
        | .final ans => .ok ⟨ans, 1, trace2, none⟩
        | .toolReq _ _ => .ok ⟨"", 1, trace2, some res⟩
    | none => runLoop parse store resps (max 1 maxSteps) 0 []

/-! ### Concrete demonstration inputs (used by witnesses and counterexamples) -/

/-- The first-party evidence item of the spec's end-to-end example. -/
def demoEvidence : Evidence :=
  { uri_or_blob_ref := "log://run/demo", source_type := "first_party_log"
    quality_score := some 0.95 }

/-- The spec §8 end-to-end claim: `Run:demo USES Model:v2` (entity),
`model_conf 0.9`, one first-party evidence item of quality 0.95. -/
def demoClaim : ClaimIn :=
  { subject_id := "Run:demo", predicate := "USES", object_kind := "entity"
    object_value := "Model:v2", model_conf := some 0.9, evidence := [demoEvidence] }

/-- The same claim as a kg-api proposal with status `"approved"`. -/
def demoProposal : KProposal := toKProposal demoClaim "approved"

/-- The edge `Run:demo -USES-> Model:v2`. -/
def demoEdge : KEdge := ⟨"Run:demo", "USES", "Model:v2"⟩

/-- A claim with a literal object (`Run:demo USES "some text"`). -/
def demoLiteralClaim : ClaimIn :=
  { subject_id := "Run:demo", predicate := "USES", object_kind := "literal"
    object_value := "some text", model_conf := some 0.9, evidence := [demoEvidence] }

/-- A claim with no evidence and no model confidence. -/
def emptyEvidenceClaim : ClaimIn :=
  { subject_id := "Run:demo", predicate := "USES", object_kind := "entity"
    object_value := "Model:v2" }

/-! ### Abstract oracles and invariant definitions used by the theorems -/

/-- The amended invariant: every materialized edge has a matching claim
whose status is `"approved"` or `"rejected"`. -/
def EdgeHasClaim (st : KGState) : Prop :=
  ∀ e ∈ st.edges, ∃ c ∈ st.claims,
    c.subject_id = e.subj ∧ c.predicate = e.pred ∧ c.object_value = e.obj ∧
    (c.status = "approved" ∨ c.status = "rejected")

/-- A store oracle whose calls always succeed with an empty body. -/
def storeStub : StoreCall → Except Nat String := fun _ => .ok ""

/-- A read query whose write keyword is lower-case (and so misses the
case-sensitive denylist). -/
def lcDeleteQuery : String := "MATCH (n) delete (n) RETURN n"

/-- Fast-path matchers that never fire. -/
def routeNone : String → Option (Option String × ToolArgs) := fun _ => none

/-- A trace serializer stub. -/
def dumpsStub : Option String × ToolArgs → String := fun _ => ""

/-- A parse oracle always producing an unknown tool call. -/
def bogusParse : String → Option ExtractedV := fun _ => some (.toolReq (some "bogus") {})

/-- A model response that is just an empty JSON object. -/
def braceOnly : String := "\x7b\x7d"

/-- A parse oracle always producing a `neighbors` tool call. -/
def neighborsParse : String → Option ExtractedV :=
  fun _ => some (.toolReq (some "neighbors") {})

/-- A store oracle answering every call with `"r"`. -/
def okStore : StoreCall → Except Nat String := fun _ => .ok "r"

/-! ### Substring search: existential characterization -/

theorem startsWithAux_iff (p s : List Char) :
    startsWithAux p s = true ↔ ∃ t, s = p ++ t := by
  induction p generalizing s with
  | nil => simp [startsWithAux]
  | cons x xs ih =>
    cases s with
    | nil => simp [startsWithAux]
    | cons c cs =>
      simp only [startsWithAux, Bool.and_eq_true, beq_iff_eq, ih,
        List.cons_append, List.cons.injEq]
      constructor
      · rintro ⟨hx, t, ht⟩
        exact ⟨t, hx.symm, ht⟩
      · rintro ⟨t, hx, ht⟩
        exact ⟨hx.symm, t, ht⟩

theorem hasSubAux_iff (pat s : List Char) :
    hasSubAux pat s = true ↔ ∃ a b, s = a ++ pat ++ b := by
  induction s with
  | nil =>
    simp only [hasSubAux, List.isEmpty_iff]
    constructor
    · rintro rfl
      exact ⟨[], [], rfl⟩
    · rintro ⟨a, b, hab⟩
      rcases List.append_eq_nil.mp (List.append_eq_nil.mp hab.symm).1 with ⟨-, h2⟩
      exact h2
  | cons c cs ih =>
    simp only [hasSubAux, Bool.or_eq_true, startsWithAux_iff, ih]
    constructor
    · rintro (⟨t, ht⟩ | ⟨a, b, hab⟩)
      · exact ⟨[], t, by simpa using ht⟩
      · exact ⟨c :: a, b, by simp [hab]⟩
    · rintro ⟨a, b, hab⟩
      cases a with
      | nil => exact Or.inl ⟨b, by simpa using hab⟩
      | cons a0 as =>
        have h : c = a0 ∧ cs = as ++ (pat ++ b) := by simpa using hab
        exact Or.inr ⟨as, b, by simpa using h.2⟩

theorem strHasSub_iff (pat s : String) :
    strHasSub pat s = true ↔ OccursIn pat s := by
  rw [strHasSub, hasSubAux_iff]
  constructor
  · rintro ⟨a, b, hab⟩
    refine ⟨⟨a⟩, ⟨b⟩, String.ext ?_⟩
    simpa using hab
  · rintro ⟨a, b, hab⟩
    refine ⟨a.data, b.data, ?_⟩
    have := congrArg String.data hab
    simpa using this

/-! ### C2 — trust scorer -/

/-- Python `max` over a non-empty list agrees with max-with-default-0. -/
theorem pymax_cons (x : ℚ) (xs : List ℚ) :
    pymax (x :: xs) = ((x :: xs).max?).getD 0 := rfl

/-- C2: the Trust Scorer is the pure function
`clamp(0.5*qual + 0.4*model_conf + first_party_bonus, 0, 1)` exactly as the
spec words it (`trustSpecScore`): `qual` the max quality (0 for empty list
or absent scores), bonus 0.15 iff non-empty all-first-party evidence,
`model_conf` defaulting to 0; the result is always in `[0,1]`, and it is 0
on empty evidence with absent model confidence. -/
theorem trust_score_correct (cfg : GConfig) (claim : ClaimIn) :
    _trust_score cfg claim = trustSpecScore cfg claim ∧
    0 ≤ _trust_score cfg claim ∧ _trust_score cfg claim ≤ 1 ∧
    (claim.evidence = [] → claim.model_conf = none → _trust_score cfg claim = 0) := by
  refine ⟨?_, ?_, ?_, ?_⟩
  · unfold _trust_score trustSpecScore
    cases hev : claim.evidence with
    | nil => simp
    | cons e es =>
      by_cases hp : ∀ a ∈ e :: es, a.source_type ∈ cfg.FIRST_PARTY
      · simp [hp, pymax_cons]
      · simp [hp, pymax_cons]
  · exact le_max_left 0 _
  · exact max_le (by norm_num) (min_le_left 1 _)
  · intro h1 h2
    simp only [_trust_score, h1, h2]
    norm_num [min_def, max_def]

/-- Witness for the hypotheses of `trust_score_correct`: evaluated at the
empty-evidence claim, the score is 0. -/
theorem trust_score_correct_witness :
    _trust_score defaultConfig emptyEvidenceClaim = 0 :=
  (trust_score_correct defaultConfig emptyEvidenceClaim).2.2.2 rfl rfl

/-! ### C1 — policy gate decision -/

/-- `min_qual_ok` characterization. -/
theorem min_qual_okB_iff (cfg : GConfig) (claim : ClaimIn) :
    min_qual_okB cfg claim = true ↔
      claim.evidence ≠ [] ∧
        ∀ e ∈ claim.evidence, cfg.MIN_QUAL ≤ e.quality_score.getD 0 := by
  unfold min_qual_okB
  cases hev : claim.evidence with
  | nil => simp
  | cons e es => simp [List.all_eq_true]

/-- `auto_merge` characterization. -/
theorem auto_mergeB_iff (cfg : GConfig) (claim : ClaimIn) (resp : KgResp) :
    auto_mergeB cfg claim resp = true ↔
      claim.predicate ∈ cfg.AUTO_MERGE_PREDICATES ∧
      claim.object_kind = "entity" ∧
      cfg.AUTO_TRUST ≤ _trust_score cfg claim ∧
      min_qual_okB cfg claim = true ∧
      _has_conflicts claim resp = false := by
  unfold auto_mergeB
  simp only [Bool.and_eq_true, decide_eq_true_eq, Bool.not_eq_true']
  tauto

/-- C1: the gate computes `min_qual_ok` as "evidence non-empty and every
quality score (default 0) at least the configured minimum"; it decides
auto-merge (persisting status `"approved"`, else `"pending"`) iff the
predicate is auto-mergeable, the object is an entity, the trust score
reaches the threshold, `min_qual_ok` holds and the detector reports no
conflict; and the proposal stored by the ledger carries exactly the decided
status. -/
theorem policy_gate_decision (cfg : GConfig) (claim : ClaimIn) (resp : KgResp) :
    ((propose_claim_gateway cfg claim resp).min_quality_ok = true ↔
      claim.evidence ≠ [] ∧
        ∀ e ∈ claim.evidence, cfg.MIN_QUAL ≤ e.quality_score.getD 0) ∧
    ((propose_claim_gateway cfg claim resp).status = "approved" ↔
      claim.predicate ∈ cfg.AUTO_MERGE_PREDICATES ∧
      claim.object_kind = "entity" ∧
      cfg.AUTO_TRUST ≤ _trust_score cfg claim ∧
      min_qual_okB cfg claim = true ∧
      _has_conflicts claim resp = false) ∧
    ((propose_claim_gateway cfg claim resp).status = "pending" ↔
      ¬(claim.predicate ∈ cfg.AUTO_MERGE_PREDICATES ∧
        claim.object_kind = "entity" ∧
        cfg.AUTO_TRUST ≤ _trust_score cfg claim ∧
        min_qual_okB cfg claim = true ∧
        _has_conflicts claim resp = false)) ∧
    (∀ st : KGState,
      ∃ c ∈ (kgPropose st
          (toKProposal claim (propose_claim_gateway cfg claim resp).status)).1.claims,
        c.id = (kgPropose st
          (toKProposal claim (propose_claim_gateway cfg claim resp).status)).2 ∧
        c.status = (propose_claim_gateway cfg claim resp).status ∧
        c.subject_id = claim.subject_id ∧ c.predicate = claim.predicate ∧
        c.object_kind = claim.object_kind ∧ c.object_value = claim.object_value) := by
  have hstat : (propose_claim_gateway cfg claim resp).status
      = (if auto_mergeB cfg claim resp then "approved" else "pending") := rfl
  refine ⟨min_qual_okB_iff cfg claim, ?_, ?_, ?_⟩
  · rw [hstat, ← auto_mergeB_iff cfg claim resp]
    cases auto_mergeB cfg claim resp <;> simp
  · rw [hstat, ← auto_mergeB_iff cfg claim resp]
    cases auto_mergeB cfg claim resp <;> simp
  · intro st
    refine ⟨_, List.mem_append_right _ (List.mem_singleton.mpr rfl), rfl, rfl, rfl, rfl, rfl, rfl⟩

/-! ### C3 — fail-closed conflict detection (corrected) -/

/-- Counterexample to C3 as stated: a *malformed response* — a JSON body
with no `records` key (`res.get` silently defaults) — makes the detector
return `conflict = false`, not `true`; on the demo claim the gate then even
auto-merges instead of routing to review. -/
theorem conflict_malformed_response_not_failed_closed :
    _has_conflicts demoClaim (KgResp.body none) = false ∧
    (propose_claim_gateway defaultConfig demoClaim (KgResp.body none)).status
      = "approved" := by
  constructor
  · decide
  · norm_num [propose_claim_gateway, auto_mergeB, min_qual_okB, _trust_score, _has_conflicts,
      conflictOn, defaultConfig, demoClaim, demoEvidence, pymax, min_def, max_def]

/-- C3 amended: whenever the conflict-detector's query *raises* — the store
call fails (unreachable, HTTP error, non-JSON body), the `records` list is
empty (`IndexError`), or the first record is a truthy non-dict
(`AttributeError`) — the detector returns `conflict = true` and the gate
persists status `"pending"`. -/
theorem conflict_fail_closed (cfg : GConfig) (claim : ClaimIn) (resp : KgResp)
    (h : respRaises resp = true) :
    _has_conflicts claim resp = true ∧
    (propose_claim_gateway cfg claim resp).status = "pending" := by
  have hc : _has_conflicts claim resp = true := by
    cases resp with
    | exn => rfl
    | body records =>
      simp only [respRaises] at h
      simp only [_has_conflicts]
      cases hh : (records.getD [RecordVal.dict none]).head? with
      | none => rfl
      | some r =>
        rw [hh] at h
        cases r with
        | truthyNonDict => rfl
        | falsy => exact absurd h Bool.false_ne_true
        | dict o => exact absurd h Bool.false_ne_true
  refine ⟨hc, ?_⟩
  have ham : auto_mergeB cfg claim resp = false := by
    unfold auto_mergeB
    simp [hc]
  show (if auto_mergeB cfg claim resp then "approved" else "pending") = "pending"
  rw [ham]
  simp

/-- Witness for `conflict_fail_closed` at a concrete raising response. -/
theorem conflict_fail_closed_witness :
    _has_conflicts demoClaim KgResp.exn = true ∧
    (propose_claim_gateway defaultConfig demoClaim KgResp.exn).status = "pending" :=
  conflict_fail_closed defaultConfig demoClaim KgResp.exn rfl

/-! ### C4 — conflict iff differing entity object -/

/-- C4: on a successful store query over graph `edges`, the detector
reports conflict iff the object is an entity and some object reachable from
the subject via a `predicate`-typed edge differs from the proposed value;
and a literal-object proposal never conflicts, whatever the store returned.
-/
theorem conflict_detector_iff (claim : ClaimIn)
    (edges : List (String × String × String)) :
    (_has_conflicts claim (KgResp.body (some [RecordVal.dict
        (some (conflictQueryObjs edges claim.subject_id claim.predicate))])) = true ↔
      claim.object_kind = "entity" ∧
        ∃ e ∈ edges, e.1 = claim.subject_id ∧ e.2.1 = claim.predicate ∧
          e.2.2 ≠ claim.object_value) ∧
    (∀ objs : List String, claim.object_kind = "literal" →
      _has_conflicts claim (KgResp.body (some [RecordVal.dict (some objs)])) = false) := by
  constructor
  · show conflictOn claim (conflictQueryObjs edges claim.subject_id claim.predicate) = true ↔ _
    unfold conflictOn conflictQueryObjs
    by_cases hk : claim.object_kind = "entity"
    · simp only [hk, if_true, List.any_eq_true, List.mem_dedup, List.mem_map,
        List.mem_filter, Bool.and_eq_true, beq_iff_eq, bne_iff_ne, ne_eq, true_and]
      constructor
      · rintro ⟨o, ⟨e, ⟨he, h1, h2⟩, h3⟩, h4⟩
        exact ⟨e, he, h1, h2, by rw [h3]; exact h4⟩
      · rintro ⟨e, he, h1, h2, h3⟩
        exact ⟨e.2.2, ⟨e, ⟨he, h1, h2⟩, rfl⟩, h3⟩
    · simp [hk]
  · intro objs hk
    show conflictOn claim objs = false
    unfold conflictOn
    rw [hk]
    simp

/-- Witness for the literal clause of `conflict_detector_iff`: a literal
proposal does not conflict even when a differing object exists. -/
theorem conflict_detector_iff_witness :
    _has_conflicts demoLiteralClaim
      (KgResp.body (some [RecordVal.dict (some ["Model:v1"])])) = false :=
  (conflict_detector_iff demoLiteralClaim []).2 ["Model:v1"] rfl

/-! ### C5 — edge/claim invariant (corrected) -/


/-- `setStatus` sends every claim to one with the same triple and either
the old or the new status. -/
theorem setStatus_mem (cs : List KClaim) (cid : Nat) (stt : String) (c : KClaim)
    (hc : c ∈ cs) :
    ∃ c2 ∈ setStatus cs cid stt,
      c2.subject_id = c.subject_id ∧ c2.predicate = c.predicate ∧
      c2.object_value = c.object_value ∧
      (c2.status = c.status ∨ c2.status = stt) := by
  unfold setStatus
  by_cases h : c.id = cid
  · exact ⟨{ c with status := stt }, List.mem_map.mpr ⟨c, hc, by simp [h]⟩,
      rfl, rfl, rfl, Or.inr rfl⟩
  · exact ⟨c, List.mem_map.mpr ⟨c, hc, by simp [h]⟩, rfl, rfl, rfl, Or.inl rfl⟩

/-- The re-statused claim of the targeted id is in the `setStatus` image. -/
theorem setStatus_self (cs : List KClaim) (cid : Nat) (stt : String) (c : KClaim)
    (hc : c ∈ cs) (hid : c.id = cid) :
    { c with status := stt } ∈ setStatus cs cid stt :=
  List.mem_map.mpr ⟨c, hc, by simp [hid]⟩

/-- Every single kg-api call preserves the invariant. -/
theorem edgeHasClaim_step (st : KGState) (op : KGOp) (h : EdgeHasClaim st) :
    EdgeHasClaim (kgStep st op) := by
  cases op with
  | propose p =>
    intro e he
    have he2 : e ∈ (if p.status = "approved" ∧ p.object_kind = "entity"
        then st.edges ++ [(⟨p.subject_id, p.predicate, p.object_value⟩ : KEdge)]
        else st.edges) := he
    by_cases hcond : p.status = "approved" ∧ p.object_kind = "entity"
    · rw [if_pos hcond] at he2
      rcases List.mem_append.mp he2 with hold | hnew
      · obtain ⟨c, hcmem, h1, h2, h3, h4⟩ := h e hold
        exact ⟨c, List.mem_append_left _ hcmem, h1, h2, h3, h4⟩
      · have heq : e = ⟨p.subject_id, p.predicate, p.object_value⟩ :=
          List.mem_singleton.mp hnew
        subst heq
        exact ⟨⟨st.nextId, p.subject_id, p.predicate, p.object_kind,
            p.object_value, p.status⟩,
          List.mem_append_right _ (List.mem_singleton.mpr rfl),
          rfl, rfl, rfl, Or.inl hcond.1⟩
    · rw [if_neg hcond] at he2
      obtain ⟨c, hcmem, h1, h2, h3, h4⟩ := h e he2
      exact ⟨c, List.mem_append_left _ hcmem, h1, h2, h3, h4⟩
  | approve cid =>
    show EdgeHasClaim (match kgApprove st cid with
      | .ok s2 => s2
      | .error _ => st)
    unfold kgApprove
    cases hfind : st.claims.find? (fun c => c.id == cid) with
    | none => exact h
    | some c =>
      have hcmem : c ∈ st.claims := List.mem_of_find?_eq_some hfind
      have hcid : c.id = cid := by
        have := List.find?_some hfind
        simpa using this
      by_cases hk : c.object_kind = "entity"
      · by_cases hent : c.subject_id ∈ st.entities ∧ c.object_value ∈ st.entities
        · simp only [hk, if_true, hent, if_pos]
          intro e he
          rcases List.mem_append.mp he with hold | hnew
          · obtain ⟨c0, hc0, h1, h2, h3, h4⟩ := h e hold
            obtain ⟨c2, hc2, g1, g2, g3, g4⟩ :=
              setStatus_mem st.claims cid "approved" c0 hc0
            refine ⟨c2, hc2, g1.trans h1, g2.trans h2, g3.trans h3, ?_⟩
            rcases g4 with g4 | g4
            · rw [g4]; exact h4
            · exact Or.inl g4
          · have heq : e = ⟨c.subject_id, c.predicate, c.object_value⟩ :=
              List.mem_singleton.mp hnew
            subst heq
            exact ⟨{ c with status := "approved" },
              setStatus_self st.claims cid "approved" c hcmem hcid,
              rfl, rfl, rfl, Or.inl rfl⟩
        · simp only [hk, if_true, hent, if_neg, not_false_iff]
          exact h
      · simp only [hk, if_false]
        intro e he
        obtain ⟨c0, hc0, h1, h2, h3, h4⟩ := h e he
        obtain ⟨c2, hc2, g1, g2, g3, g4⟩ :=
          setStatus_mem st.claims cid "approved" c0 hc0
        refine ⟨c2, hc2, g1.trans h1, g2.trans h2, g3.trans h3, ?_⟩
        rcases g4 with g4 | g4
        · rw [g4]; exact h4
        · exact Or.inl g4
  | reject cid =>
    intro e he
    obtain ⟨c0, hc0, h1, h2, h3, h4⟩ := h e he
    obtain ⟨c2, hc2, g1, g2, g3, g4⟩ := setStatus_mem st.claims cid "rejected" c0 hc0
    refine ⟨c2, hc2, g1.trans h1, g2.trans h2, g3.trans h3, ?_⟩
    rcases g4 with g4 | g4
    · rw [g4]; exact h4
    · exact Or.inr g4

/-- The invariant holds in every state reachable from the empty stores. -/
theorem edgeHasClaim_run (ops : List KGOp) : EdgeHasClaim (kgRun kgInit ops) := by
  have H : ∀ (l : List KGOp) (st : KGState), EdgeHasClaim st → EdgeHasClaim (kgRun st l) := by
    intro l
    induction l with
    | nil => intro st h; exact h
    | cons op rest ih =>
      intro st h
      exact ih (kgStep st op) (edgeHasClaim_step st op h)
  refine H ops kgInit ?_
  intro e he
  simp [kgInit] at he

/-- Counterexample to C5 as stated: propose an approved entity claim (the
edge materializes), then reject it — the edge remains but its only claim
now has status `"rejected"`, so some materialized edge has no `"approved"`
claim. -/
theorem rejected_claim_leaves_orphan_edge :
    demoEdge ∈ (kgRun kgInit [KGOp.propose demoProposal, KGOp.reject 0]).edges ∧
    ¬∃ c ∈ (kgRun kgInit [KGOp.propose demoProposal, KGOp.reject 0]).claims,
      c.subject_id = demoEdge.subj ∧ c.predicate = demoEdge.pred ∧
      c.object_value = demoEdge.obj ∧ c.status = "approved" := by decide

/-- Edge materialization discipline of a single kg-api call: edges are
only ever *appended* (so each edge has a well-defined creating
transaction), and every edge appended by a step has, in the state that
transaction produces, a matching claim with status `"approved"` — in
`propose_claim` that claim is written earlier in the same transaction, in
`approve` it already existed beforehand; `reject` appends nothing. -/
theorem kgStep_new_edges (st : KGState) (op : KGOp) :
    ∃ new : List KEdge, (kgStep st op).edges = st.edges ++ new ∧
      ∀ e ∈ new, ∃ c ∈ (kgStep st op).claims,
        c.subject_id = e.subj ∧ c.predicate = e.pred ∧ c.object_value = e.obj ∧
        c.status = "approved" := by
  cases op with
  | propose p =>
    by_cases hcond : p.status = "approved" ∧ p.object_kind = "entity"
    · refine ⟨[⟨p.subject_id, p.predicate, p.object_value⟩], ?_, ?_⟩
      · show (if p.status = "approved" ∧ p.object_kind = "entity"
            then st.edges ++ [(⟨p.subject_id, p.predicate, p.object_value⟩ : KEdge)]
            else st.edges) = st.edges ++ [(⟨p.subject_id, p.predicate, p.object_value⟩ : KEdge)]
        rw [if_pos hcond]
      · intro e he
        have heq : e = ⟨p.subject_id, p.predicate, p.object_value⟩ :=
          List.mem_singleton.mp he
        subst heq
        exact ⟨⟨st.nextId, p.subject_id, p.predicate, p.object_kind,
            p.object_value, p.status⟩,
          List.mem_append_right _ (List.mem_singleton.mpr rfl),
          rfl, rfl, rfl, hcond.1⟩
    · refine ⟨[], ?_, by simp⟩
      show (if p.status = "approved" ∧ p.object_kind = "entity"
          then st.edges ++ [(⟨p.subject_id, p.predicate, p.object_value⟩ : KEdge)]
          else st.edges) = st.edges ++ []
      rw [if_neg hcond, List.append_nil]
  | approve cid =>
    show ∃ new, (match kgApprove st cid with
        | .ok s2 => s2
        | .error _ => st).edges = st.edges ++ new ∧
      ∀ e ∈ new, ∃ c ∈ (match kgApprove st cid with
        | .ok s2 => s2
        | .error _ => st).claims,
        c.subject_id = e.subj ∧ c.predicate = e.pred ∧ c.object_value = e.obj ∧
        c.status = "approved"
    unfold kgApprove
    cases hfind : st.claims.find? (fun c => c.id == cid) with
    | none => exact ⟨[], by simp, by simp⟩
    | some c =>
      have hcmem : c ∈ st.claims := List.mem_of_find?_eq_some hfind
      have hcid : c.id = cid := by
        have := List.find?_some hfind
        simpa using this
      by_cases hk : c.object_kind = "entity"
      · by_cases hent : c.subject_id ∈ st.entities ∧ c.object_value ∈ st.entities
        · simp only [hk, if_true, hent, if_pos]
          refine ⟨[⟨c.subject_id, c.predicate, c.object_value⟩], rfl, ?_⟩
          intro e he
          have heq : e = ⟨c.subject_id, c.predicate, c.object_value⟩ :=
            List.mem_singleton.mp he
          subst heq
          exact ⟨{ c with status := "approved" },
            setStatus_self st.claims cid "approved" c hcmem hcid,
            rfl, rfl, rfl, rfl⟩
        · simp only [hk, if_true, hent, if_neg, not_false_iff]
          exact ⟨[], by simp, by simp⟩
      · simp only [hk, if_false]
        exact ⟨[], by simp, by simp⟩
  | reject cid => exact ⟨[], (List.append_nil st.edges).symm, by simp⟩

/-- C5 amended: in every state reachable by propose/approve/reject from
empty stores, every materialized edge has a corresponding claim for its
subject, predicate and object whose status is `"approved"` or `"rejected"`
(a later reject can demote it without removing the edge); and edges are
created only by appending — every transaction that materializes an edge
leaves a matching claim with status `"approved"` in the state it produces,
the claim having been created no later than (in `propose`, earlier within
the same transaction; in `approve`, strictly before) the edge. -/
theorem edge_always_has_claim (ops : List KGOp) :
    (∀ e ∈ (kgRun kgInit ops).edges,
      ∃ c ∈ (kgRun kgInit ops).claims,
        c.subject_id = e.subj ∧ c.predicate = e.pred ∧ c.object_value = e.obj ∧
        (c.status = "approved" ∨ c.status = "rejected")) ∧
    (∀ op : KGOp, ∃ new : List KEdge,
      (kgStep (kgRun kgInit ops) op).edges = (kgRun kgInit ops).edges ++ new ∧
      ∀ e ∈ new, ∃ c ∈ (kgStep (kgRun kgInit ops) op).claims,
        c.subject_id = e.subj ∧ c.predicate = e.pred ∧ c.object_value = e.obj ∧
        c.status = "approved") :=
  ⟨edgeHasClaim_run ops, fun op => kgStep_new_edges (kgRun kgInit ops) op⟩

/-- Witness for `edge_always_has_claim` on a concrete run: both the
status invariant (with its membership hypothesis discharged) and the
approved-at-materialization part at the materializing step. -/
theorem edge_always_has_claim_witness :
    demoEdge ∈ (kgRun kgInit [KGOp.propose demoProposal]).edges ∧
    (∃ c ∈ (kgRun kgInit [KGOp.propose demoProposal]).claims,
      c.subject_id = demoEdge.subj ∧ c.predicate = demoEdge.pred ∧
      c.object_value = demoEdge.obj ∧
      (c.status = "approved" ∨ c.status = "rejected")) ∧
    (∃ new : List KEdge,
      (kgStep (kgRun kgInit []) (KGOp.propose demoProposal)).edges
        = (kgRun kgInit []).edges ++ new ∧
      ∀ e ∈ new, ∃ c ∈ (kgStep (kgRun kgInit []) (KGOp.propose demoProposal)).claims,
        c.subject_id = e.subj ∧ c.predicate = e.pred ∧ c.object_value = e.obj ∧
        c.status = "approved") :=
  ⟨by decide,
    (edge_always_has_claim [KGOp.propose demoProposal]).1 demoEdge (by decide),
    (edge_always_has_claim []).2 (KGOp.propose demoProposal)⟩

/-! ### C6 — propose-then-approve is *not* idempotent on the edge (code bug)

kg-api's `approve` materializes with `apoc.create.relationship`, which
always creates a fresh relationship; so does the already-approved branch of
`propose_claim`.  The gateway's auto-merge flow (propose with status
`"approved"`, then the follow-up `/approve`) therefore yields **two**
parallel `(subject)-[predicate]->(object)` edges, and each further approve
adds another. -/

/-- Evaluation at the failing input: after `propose(approved)` +
one `approve` (exactly the gateway auto-merge flow) the edge exists twice,
and a further approve makes it three. -/
theorem approve_duplicates_edge :
    (kgRun kgInit [KGOp.propose demoProposal, KGOp.approve 0]).edges
      = [demoEdge, demoEdge] ∧
    (kgRun kgInit [KGOp.propose demoProposal, KGOp.approve 0,
        KGOp.approve 0]).edges = [demoEdge, demoEdge, demoEdge] ∧
    (gatewayProposeFlow defaultConfig demoClaim
        (KgResp.body (some [RecordVal.dict (some [])])) kgInit).2.edges
      = [demoEdge, demoEdge] := by
  refine ⟨by decide, by decide, ?_⟩
  norm_num [gatewayProposeFlow, propose_claim_gateway, auto_mergeB, min_qual_okB, _trust_score,
    _has_conflicts, conflictOn, defaultConfig, demoClaim, demoEvidence, pymax, min_def, max_def,
    toKProposal, kgPropose, kgApprove, kgInit, ensureEntity, setStatus, demoProposal, demoEdge]
  decide

/-! ### C7 / C10 — cypher safety filter -/


/-- C7: a `cypher` tool call whose query contains a denylisted token is
answered with a 400 error and no call ever reaches the store. -/
theorem cypher_denylist_rejected (store : StoreCall → Except Nat String)
    (args : ToolArgs) (h : ∃ pat ∈ badTokens, OccursIn pat args.query) :
    dispatchTool store (some "cypher") args = (.error 400, []) := by
  obtain ⟨pat, hmem, hocc⟩ := h
  have hany : badTokens.any (fun b => strHasSub b args.query) = true :=
    List.any_eq_true.mpr ⟨pat, hmem, (strHasSub_iff pat args.query).mpr hocc⟩
  have hsafe : _cypher_safe args.query = false := by
    unfold _cypher_safe
    rw [hany]
    rfl
  unfold dispatchTool
  rw [hsafe]
  rfl

/-- Witness for `cypher_denylist_rejected`: a query containing `DELETE `
is rejected and never forwarded. -/
theorem cypher_denylist_rejected_witness :
    dispatchTool storeStub (some "cypher") { query := "MATCH (n) DELETE n RETURN 1" }
      = (.error 400, []) :=
  cypher_denylist_rejected storeStub { query := "MATCH (n) DELETE n RETURN 1" }
    ⟨"DELETE ", by decide, "MATCH (n) ", "n RETURN 1", by decide⟩

/-- C10: `_cypher_safe` passes exactly the queries containing none of the
six exact case-sensitive tokens; consequently the lower-case
`MATCH (n) delete (n) RETURN n` passes and is forwarded verbatim to the
store. -/
theorem cypher_safe_iff :
    (∀ q : String, _cypher_safe q = true ↔ ∀ pat ∈ badTokens, ¬ OccursIn pat q) ∧
    _cypher_safe lcDeleteQuery = true ∧
    (∀ store : StoreCall → Except Nat String,
      dispatchTool store (some "cypher") { query := lcDeleteQuery } =
        (store (.cypher { query := lcDeleteQuery }),
          [StoreCall.cypher { query := lcDeleteQuery }])) := by
  refine ⟨?_, by decide, ?_⟩
  · intro q
    constructor
    · intro h pat hmem hocc
      have hany : badTokens.any (fun b => strHasSub b q) = true :=
        List.any_eq_true.mpr ⟨pat, hmem, (strHasSub_iff pat q).mpr hocc⟩
      have hfalse : _cypher_safe q = false := by
        unfold _cypher_safe
        rw [hany]
        rfl
      exact absurd (h.symm.trans hfalse) (by simp)
    · intro h
      unfold _cypher_safe
      cases hany : badTokens.any (fun b => strHasSub b q) with
      | false => rfl
      | true =>
        obtain ⟨pat, hmem, hsub⟩ := List.any_eq_true.mp hany
        exact absurd ((strHasSub_iff pat q).mp hsub) (h pat hmem)
  · intro store
    rfl

/-! ### C8 — non-JSON model output becomes the final answer -/

/-- C8: when the (wrapper-stripped) model text contains no JSON object, the
loop step coerces the whole trimmed text into the final answer — at any
loop position, and for the whole `/query` call when no fast path fires on
the question: the call returns the trimmed text after exactly one model
call, as a normal result. -/
theorem no_json_is_final_answer
    (parse : String → Option ExtractedV) (store : StoreCall → Except Nat String)
    (s : String) (h : bracesFound (stripWrappers s).data = false) :
    (∀ (rest : List String) (fuel calls : Nat) (trace : List TraceEntry),
      runLoop parse store (s :: rest) (fuel + 1) calls trace =
        .ok ⟨pyStrip (stripWrappers s), calls + 1, trace ++ [.assistant s], none⟩) ∧
    (∀ (dumps : Option String × ToolArgs → String)
        (routeAdd routeNei : String → Option (Option String × ToolArgs))
        (question : String) (rest : List String) (maxSteps : Nat),
      routeAdd question = none → routeNei question = none →
      runQuery parse store dumps routeAdd routeNei question (s :: rest) maxSteps =
        .ok ⟨pyStrip (stripWrappers s), 1, [.assistant s], none⟩) := by
  have hext : extractJson parse s = .final (pyStrip (stripWrappers s)) := by
    simp [extractJson, h]
  constructor
  · intro rest fuel calls trace
    simp [runLoop, hext]
  · intro dumps routeAdd routeNei question rest maxSteps hA hN
    obtain ⟨m, hm⟩ : ∃ m, max 1 maxSteps = m + 1 := ⟨max 1 maxSteps - 1, by omega⟩
    simp [runQuery, hA, hN, hm, runLoop, hext]

/-- Witness for `no_json_is_final_answer` at the spec's example text. -/
theorem no_json_is_final_answer_witness :
    runLoop (fun _ => none) storeStub ["not json at all"] 1 0 [] =
      .ok ⟨"not json at all", 1, [.assistant "not json at all"], none⟩ := by
  have h := (no_json_is_final_answer (fun _ => none) storeStub "not json at all"
    (by decide)).1 [] 0 0 []
  rw [h]
  decide

/-! ### C9 — step-budget exhaustion (corrected) -/


/-- Counterexample to C9 as stated: a run in which no fast path fires and
the model never returns a `final` object, but whose (unknown) tool dispatch
raises — the `/query` call ends with a 400 error, not with the
`(stopped: max_steps)` sentinel. -/
theorem max_steps_error_counterexample :
    isFinalObj (extractJson bogusParse braceOnly) = false ∧
    runQuery bogusParse storeStub dumpsStub routeNone routeNone "q" [braceOnly] 1
      = .error 400 := by
  constructor
  · decide
  · decide

/-- `List.getD` across `tail`. -/
theorem getD_tail (l : List String) (i : Nat) :
    l.tail.getD i "" = l.getD (i + 1) "" := by
  cases l <;> rfl

/-- `List.getD` at 0 is `headD`. -/
theorem getD_zero (l : List String) : l.getD 0 "" = l.headD "" := by
  cases l <;> rfl

/-- Budget exhaustion for the bare loop: if no response in the budget
window extracts to a `final` object and every dispatched tool call
succeeds, the loop consumes the whole budget and returns the sentinel. -/
theorem runLoop_exhausts (parse : String → Option ExtractedV)
    (store : StoreCall → Except Nat String) :
    ∀ (fuel : Nat) (resps : List String) (calls : Nat) (trace : List TraceEntry),
    (∀ i < fuel, isFinalObj (extractJson parse (resps.getD i "")) = false) →
    (∀ i < fuel, ∀ t a, extractJson parse (resps.getD i "") = .toolReq t a →
      ∃ v, (dispatchTool store t a).1 = .ok v) →
    ∃ tr, runLoop parse store resps fuel calls trace =
        .ok ⟨stoppedSentinel, calls + fuel, tr, none⟩ ∧
      tr.length = trace.length + 2 * fuel := by
  intro fuel
  induction fuel with
  | zero =>
    intro resps calls trace _ _
    exact ⟨trace, by simp [runLoop], by omega⟩
  | succ n ih =>
    intro resps calls trace hnf hdisp
    have h0 := hnf 0 (Nat.succ_pos n)
    rw [getD_zero] at h0
    cases hext : extractJson parse (resps.headD "") with
    | final ans =>
      rw [hext] at h0
      exact absurd h0 (by simp [isFinalObj])
    | toolReq t a =>
      obtain ⟨v, hv⟩ := hdisp 0 (Nat.succ_pos n) t a (by rw [getD_zero]; exact hext)
      rcases hd : dispatchTool store t a with ⟨fst, snd⟩
      have hfst : fst = .ok v := by
        rw [hd] at hv
        exact hv
      subst hfst
      have hstep : runLoop parse store resps (n + 1) calls trace =
          runLoop parse store resps.tail n (calls + 1)
            ((trace ++ [TraceEntry.assistant (resps.headD "")]) ++ [TraceEntry.toolResult v]) := by
        simp only [runLoop, hext, hd]
      obtain ⟨tr, htr, hlen⟩ := ih resps.tail (calls + 1)
        ((trace ++ [TraceEntry.assistant (resps.headD "")]) ++ [TraceEntry.toolResult v])
        (by
          intro i hi
          rw [getD_tail]
          exact hnf (i + 1) (by omega))
        (by
          intro i hi t2 a2 hx
          rw [getD_tail] at hx
          exact hdisp (i + 1) (by omega) t2 a2 hx)
      refine ⟨tr, ?_, ?_⟩
      · rw [hstep, htr]
        have : calls + 1 + n = calls + (n + 1) := by omega
        rw [this]
      · rw [hlen]
        simp only [List.length_append, List.length_cons, List.length_nil]
        omega

/-- C9 amended: when neither fast path fires, the model never yields a
`final` object within the budget window, **and every dispatched tool call
succeeds**, the `/query` run makes exactly `max 1 max_steps` model calls
and returns the `(stopped: max_steps)` sentinel with the full
(2-entries-per-step) trace as a normal result. -/
theorem step_budget_exhaustion (parse : String → Option ExtractedV)
    (store : StoreCall → Except Nat String)
    (dumps : Option String × ToolArgs → String)
    (routeAdd routeNei : String → Option (Option String × ToolArgs))
    (question : String) (resps : List String) (maxSteps : Nat)
    (hA : routeAdd question = none) (hN : routeNei question = none)
    (hnf : ∀ i < max 1 maxSteps, isFinalObj (extractJson parse (resps.getD i "")) = false)
    (hdisp : ∀ i < max 1 maxSteps, ∀ t a,
      extractJson parse (resps.getD i "") = .toolReq t a →
      ∃ v, (dispatchTool store t a).1 = .ok v) :
    ∃ tr, runQuery parse store dumps routeAdd routeNei question resps maxSteps =
        .ok ⟨stoppedSentinel, max 1 maxSteps, tr, none⟩ ∧
      tr.length = 2 * max 1 maxSteps := by
  obtain ⟨tr, htr, hlen⟩ := runLoop_exhausts parse store (max 1 maxSteps) resps 0 [] hnf hdisp
  refine ⟨tr, ?_, by simpa using hlen⟩
  simp only [runQuery, hA, hN]
  simpa using htr


/-- Witness for `step_budget_exhaustion`: `max_steps = 1` with a model that
always issues a (successful) tool call stops after exactly one model call
with the sentinel. -/
theorem step_budget_exhaustion_witness :
    ∃ tr, runQuery neighborsParse okStore dumpsStub routeNone routeNone "q"
        [braceOnly] 1 = .ok ⟨stoppedSentinel, max 1 1, tr, none⟩ ∧
      tr.length = 2 * max 1 1 := by
  refine step_budget_exhaustion neighborsParse okStore dumpsStub routeNone routeNone
    "q" [braceOnly] 1 rfl rfl ?_ ?_
  · intro i hi
    have hz : i = 0 := by omega
    subst hz
    decide
  · intro i hi t a hx
    have hz : i = 0 := by omega
    subst hz
    have hval : extractJson neighborsParse (([braceOnly] : List String).getD 0 "")
        = ExtractedV.toolReq (some "neighbors") {} := by decide
    rw [hval] at hx
    injection hx with h1 h2
    subst h1
    subst h2
    exact ⟨"r", rfl⟩

end VKG
